import Mathlib

/-!
Verification development for the relx release-management helper.

This file gives a shallow embedding of the provider abstraction and the
interactive review-workflow loop of the relx repository:

- `src/relx/providers/params.py`   (parameter variants, `Request`)
- `src/relx/providers/obs_review.py`   (`OBSReviewProvider`)
- `src/relx/providers/gitea_review.py` (`GiteaReviewProvider`)
- `src/relx/providers/obs_package.py`  (`OBSPackageProvider.get_bugowner`)
- `src/relx/providers/obs_user.py`     (`OBSUserProvider.get_user`)
- `src/relx/reviews.py`            (fetch/filter step and review loop)
- `src/relx/cli.py`                (top-level exception-to-exit-code handler)

External collaborators (the `osc` / `git obs` subprocesses, the XML and
JSON parsers) are modelled as functions from argument vectors to already
decoded responses, following section 6 of the specification: the command
execution collaborator returns captured stdout (or a distinguishable
failure); XML responses are modelled as element trees, JSON responses as
a small JSON value type.  Every provider operation returns, next to its
result, the list of argument vectors it handed to the collaborator, so
that "no backend call is issued" is an observable statement.
-/

/-- Answer to a rich `Prompt.ask` with choices y / n / a. -/
inductive Ans where
  | y
  | n
  | a
deriving DecidableEq, Repr

/-- A review request, `Request` in `src/relx/providers/params.py`.
`providerType` is the `provider_type` field and is `"obs"` or `"gitea"`. -/
structure Request where
  id : String
  name : String
  providerType : String
deriving DecidableEq, Repr

/-- `ObsListRequestsParams` from `src/relx/providers/params.py`. -/
structure ObsListRequestsParams where
  project : String
  staging : Option String := none
  isBugownerRequest : Bool := false
deriving DecidableEq, Repr

/-- `GiteaListRequestsParams` from `src/relx/providers/params.py`. -/
structure GiteaListRequestsParams where
  reviewer : String
  branch : String
  repository : String
  label : Option String := none
deriving DecidableEq, Repr

/-- The closed set of `ListRequestsParams` variants; the Python code uses a
base dataclass with two subclasses and `isinstance` dispatch. -/
inductive ListRequestsParams where
  | obs (p : ObsListRequestsParams)
  | gitea (p : GiteaListRequestsParams)
deriving DecidableEq, Repr

/-- `GiteaApproveRequestParams` from `src/relx/providers/params.py`. -/
structure GiteaApproveRequestParams where
  requestId : String
  repository : String
  reviewer : String
deriving DecidableEq, Repr

/-- `ObsApproveRequestParams` from `src/relx/providers/params.py`. -/
structure ObsApproveRequestParams where
  requestId : String
  isBugowner : Bool := false
deriving DecidableEq, Repr

/-- The closed set of `ApproveRequestParams` variants. -/
inductive ApproveRequestParams where
  | obs (p : ObsApproveRequestParams)
  | gitea (p : GiteaApproveRequestParams)
deriving DecidableEq, Repr

/-- Result object of the command execution collaborator (section 6 of the
spec: captured stdout of a subprocess that exited zero). -/
structure CmdResult where
  stdout : String
deriving DecidableEq, Repr

/-- An XML element as produced by `etree.fromstring`: tag, attributes,
text content and child elements.  Only one- and two-level child access is
used by the code, so no recursive traversal is needed. -/
inductive XElem where
  | mk (tag : String) (attrs : List (String × String)) (text : Option String)
      (children : List XElem)

/-- Tag of an element. -/
def XElem.tag : XElem → String
  | .mk t _ _ _ => t

/-- Attribute list of an element. -/
def XElem.attrs : XElem → List (String × String)
  | .mk _ a _ _ => a

/-- Text content of an element (`elem.text` in lxml, `None` when absent). -/
def XElem.text : XElem → Option String
  | .mk _ _ s _ => s

/-- Child elements of an element. -/
def XElem.children : XElem → List XElem
  | .mk _ _ _ c => c

/-- `elem.get(name)`: value of an attribute, `None` when absent. -/
def getAttr (e : XElem) (name : String) : Option String :=
  (e.attrs.find? (fun p => p.1 == name)).map (fun p => p.2)

/-- `elem.find(tag)`: first direct child with the given tag. -/
def findChild (e : XElem) (tag : String) : Option XElem :=
  e.children.find? (fun c => c.tag == tag)

/-- `elem.findall(tag)`: all direct children with the given tag, in order. -/
def findAllChildren (e : XElem) (tag : String) : List XElem :=
  e.children.filter (fun c => c.tag == tag)

/-- `elem.findall(a + "/" + b)`: grandchildren tagged `b` under children
tagged `a`, in document order. -/
def findAllPath2 (e : XElem) (a b : String) : List XElem :=
  ((findAllChildren e a).map (fun c => findAllChildren c b)).flatten

/-- `elem.find(a + "/" + b)`: first grandchild on the two-segment path. -/
def findPath2 (e : XElem) (a b : String) : Option XElem :=
  (findAllPath2 e a b).head?

/-- A single-quote character as a string, used inside the build-service
query URLs. -/
def sqc : String := (Char.ofNat 39).toString

/-- The reviewing group hard-coded in `OBSReviewProvider`. -/
def relMgrGroup : String := "sle-release-managers"

/-- `request_element.find("review[@by_group='sle-release-managers']")`:
first `review` child carrying the given `by_group` attribute. -/
def findReviewByGroup (e : XElem) (grp : String) : Option XElem :=
  e.children.find? (fun c => c.tag == "review" && getAttr c "by_group" == some grp)

/-- Query string of the default (non-bugowner, non-staging) branch of
`OBSReviewProvider.list_requests`. -/
def obsDefaultQuery (project : String) : String :=
  "/search/request?match=state/@name=" ++ sqc ++ "review" ++ sqc ++
    " and review/@state=" ++ sqc ++ "new" ++ sqc ++
    " and target/@project=" ++ sqc ++ project ++ sqc ++
    "&withhistory=0&withfullhistory=0"

/-- Query string of the bugowner branch of `OBSReviewProvider.list_requests`. -/
def obsBugownerQuery (project : String) : String :=
  "/search/request?match=state/@name=" ++ sqc ++ "review" ++ sqc ++
    " and action/@type=" ++ sqc ++ "set_bugowner" ++ sqc ++
    " and action/target/@project=" ++ sqc ++ project ++ sqc ++
    "&withhistory=0&withfullhistory=0"

/-- Query string of the staging branch of `OBSReviewProvider.list_requests`:
the project is rewritten to `<project>:Staging:<letter>`. -/
def obsStagingQuery (project staging : String) : String :=
  "/search/request?match=state/@name=" ++ sqc ++ "review" ++ sqc ++
    " and review/@state=" ++ sqc ++ "new" ++ sqc ++
    " and review/@by_project=" ++ sqc ++ project ++ ":Staging:" ++ staging ++ sqc ++
    "&withhistory=0&withfullhistory=0"

/-- Argument vector built by `OBSReviewProvider.list_requests`.  The three
queries are mutually exclusive; Python truthiness of `staging` means a
`None` or empty string falls through to the default query. -/
def obsListCmd (api : String) (p : ObsListRequestsParams) : List String :=
  let base := ["osc", "-A", api, "api"]
  if p.isBugownerRequest then
    base ++ [obsBugownerQuery p.project]
  else
    match p.staging with
    | some s => if s == "" then base ++ [obsDefaultQuery p.project]
                else base ++ [obsStagingQuery p.project s]
    | none => base ++ [obsDefaultQuery p.project]

/-- Body of the per-element acceptance logic of
`OBSReviewProvider.list_requests` (lines 66-87 of
`src/relx/providers/obs_review.py`): the element is turned into a
`Request` when its `state` child has `name="review"`, the first `review`
child with `by_group="sle-release-managers"` has `state="new"`, and both
the `id` attribute and the `action/target` `package` attribute exist;
otherwise the element contributes nothing. -/
def obsAccept (e : XElem) : Option Request :=
  match findChild e "state" with
  | none => none
  | some st =>
    if getAttr st "name" == some "review" then
      match findReviewByGroup e relMgrGroup with
      | none => none
      | some rv =>
        if getAttr rv "state" == some "new" then
          match getAttr e "id", (findPath2 e "action" "target").bind (fun t => getAttr t "package") with
          | some i, some pkg => some { id := i, name := pkg, providerType := "obs" }
          | _, _ => none
        else none
    else none

/-- The parsing loop of `OBSReviewProvider.list_requests` over
`tree.findall("request")`. -/
def obsParseRequests (tree : XElem) : List Request :=
  (findAllChildren tree "request").filterMap obsAccept

/-- `OBSReviewProvider.list_requests`.  The runner models the command
collaborator composed with `etree.fromstring`: `none` stands for a falsy
result or empty stdout (the code then returns `[]`), `some tree` for a
parsed response.  The first component of the result collects the argument
vectors issued to the collaborator. -/
def obsListRequests (api : String) (runner : List String → Option XElem)
    (params : ListRequestsParams) : List (List String) × List Request :=
  match params with
  | .gitea _ => ([], [])
  | .obs p =>
    let cmd := obsListCmd api p
    match runner cmd with
    | none => ([cmd], [])
    | some tree => ([cmd], obsParseRequests tree)

/-- Argument vector of one `osc review accept` call in
`OBSReviewProvider.approve_request`. -/
def obsApproveCmd (api grp requestId : String) : List String :=
  ["osc", "-A", api, "review", "accept", "-m", "OK", "-G", grp, requestId]

/-- The per-group loop of `OBSReviewProvider.approve_request`: one
collaborator call per group, collecting `"<group>: <stdout>"` lines. -/
def obsApproveLoop (api : String) (runner : List String → CmdResult)
    (requestId : String) : List String → List (List String) × List String
  | [] => ([], [])
  | grp :: rest =>
    let cmd := obsApproveCmd api grp requestId
    let out := runner cmd
    let tail := obsApproveLoop api runner requestId rest
    (cmd :: tail.1, (grp ++ ": " ++ out.stdout) :: tail.2)

/-- `OBSReviewProvider.approve_request` (lines 100-127 of
`src/relx/providers/obs_review.py`): the group list is
`["sle-release-managers"]`, extended with `"sle-staging-managers"` when
`is_bugowner` is set. -/
def obsApproveRequest (api : String) (runner : List String → CmdResult)
    (requestId : String) (isBugowner : Bool) : List (List String) × List String :=
  let groups := ["sle-release-managers"] ++ (if isBugowner then ["sle-staging-managers"] else [])
  obsApproveLoop api runner requestId groups

/-- A JSON value as produced by `json.loads` on the forge CLI output. -/
inductive JVal where
  | jnull
  | jbool (b : Bool)
  | jnum (n : Int)
  | jstr (s : String)
  | jarr (xs : List JVal)
  | jobj (fields : List (String × JVal))

/-- Python truthiness of a JSON value. -/
def JVal.truthy : JVal → Bool
  | .jnull => false
  | .jbool b => b
  | .jnum n => n != 0
  | .jstr s => s != ""
  | .jarr xs => !xs.isEmpty
  | .jobj fs => !fs.isEmpty

/-- Dictionary lookup on a JSON object (`None` on other shapes). -/
def JVal.getKey (v : JVal) (k : String) : Option JVal :=
  match v with
  | .jobj fs => (fs.find? (fun p => p.1 == k)).map (fun p => p.2)
  | _ => none

/-- Python `str()` applied to a scalar JSON value, as used for the `number`
field of a forge request entry. -/
def jvalStr : JVal → String
  | .jstr s => s
  | .jnum n => toString n
  | .jbool b => if b then "True" else "False"
  | .jnull => "None"
  | .jarr _ => ""
  | .jobj _ => ""

/-- Outcome of the forge list command as seen after `json.loads`:
either a falsy result / empty stdout, unparseable JSON
(`json.JSONDecodeError`), or a decoded value. -/
inductive GiteaCmdOut where
  | noOutput
  | malformedJson
  | decoded (v : JVal)

/-- Argument vector built by `GiteaReviewProvider.list_requests`. -/
def giteaListCmd (p : GiteaListRequestsParams) : List String :=
  ["git", "obs", "pr", "list", "--state", "open", "--review-state",
   "REQUEST_REVIEW", "--no-draft", "--export", "--reviewer", p.reviewer,
   "--target-branch", p.branch, p.repository]

/-- Parsing of the decoded forge JSON in
`GiteaReviewProvider.list_requests` (lines 86-105 of
`src/relx/providers/gitea_review.py`): the outer value must be a
non-empty list whose truthy first entry carries a `requests` list; each
entry with both `number` and `title` yields a `Request`, malformed
entries are skipped with a warning. -/
def giteaParseData (data : JVal) : List Request :=
  match data with
  | JVal.jarr (first :: _) =>
    if first.truthy then
      match first.getKey "requests" with
      | some (JVal.jarr rs) =>
        rs.filterMap (fun rd =>
          match rd.getKey "number", rd.getKey "title" with
          | some n, some t => some { id := jvalStr n, name := jvalStr t, providerType := "gitea" }
          | _, _ => none)
      | _ => []
    else []
  | _ => []

/-- `GiteaReviewProvider.list_requests`.  The first component of the
result is the list of argument vectors issued to the collaborator. -/
def giteaListRequests (runner : List String → GiteaCmdOut)
    (params : ListRequestsParams) : List (List String) × List Request :=
  match params with
  | .obs _ => ([], [])
  | .gitea p =>
    if p.reviewer == "" || p.branch == "" || p.repository == "" then ([], [])
    else
      let cmd := giteaListCmd p
      match runner cmd with
      | .noOutput => ([cmd], [])
      | .malformedJson => ([cmd], [])
      | .decoded data => ([cmd], giteaParseData data)

/-- Argument vector of the single comment-posting call in
`GiteaReviewProvider.approve_request`. -/
def giteaApproveCmd (p : GiteaApproveRequestParams) : List String :=
  ["git", "obs", "pr", "comment", p.repository ++ "#" ++ p.requestId,
   "-m", "@" ++ p.reviewer ++ ": approve"]

/-- `GiteaReviewProvider.approve_request` (lines 135-161 of
`src/relx/providers/gitea_review.py`).  The runner models the command
collaborator: `none` stands for a falsy result object (`if not result`),
`some r` for a returned result whose captured stdout is `r.stdout`.
Under the collaborator contract of section 6 of the spec a completed
command always yields a result object, so a command that merely prints
nothing yields `some { stdout := "" }`, not `none`. -/
def giteaApproveRequest (runner : List String → Option CmdResult)
    (params : ApproveRequestParams) : List (List String) × List String :=
  match params with
  | .obs _ => ([], [])
  | .gitea p =>
    let cmd := giteaApproveCmd p
    match runner cmd with
    | none => ([cmd], [])
    | some res => ([cmd], [res.stdout])

/-- Python `str.replace` specialised to the fixed pattern `"++"` and
replacement `"%2B%2B"`: left-to-right, non-overlapping occurrences. -/
def replacePlusPlus : List Char → List Char
  | [] => []
  | [c] => [c]
  | c1 :: c2 :: cs =>
    if c1 == '+' && c2 == '+' then "%2B%2B".data ++ replacePlusPlus cs
    else c1 :: replacePlusPlus (c2 :: cs)

/-- `package.replace("++", "%2B%2B")` from
`OBSPackageProvider.get_bugowner`. -/
def pctEncodePlusPlus (s : String) : String :=
  String.mk (replacePlusPlus s.data)

/-- Argument vector of the ownership query in
`OBSPackageProvider.get_bugowner`. -/
def getBugownerCmd (api pkg : String) : List String :=
  ["osc", "-A", api, "api",
   "/search/owner?package=" ++ pctEncodePlusPlus pkg ++ "&filter=bugowner"]

/-- `OBSPackageProvider.get_bugowner` (lines 78-112 of
`src/relx/providers/obs_package.py`).  The runner models the command
collaborator composed with `etree.fromstring`: `Except.error ()` stands
for a `CalledProcessError` of the subprocess, `Except.ok tree` for a
parsed response.  A process failure is wrapped in a `RuntimeError` with
the message `"<package> has no bugowner"` instead of propagating raw;
person-type owners are checked before group-type owners; when neither is
present the result is `([], false)`. -/
def getBugowner (api : String) (runner : List String → Except Unit XElem)
    (pkg : String) : Except String (List (Option String) × Bool) :=
  match runner (getBugownerCmd api pkg) with
  | .error _ => .error (pkg ++ " has no bugowner")
  | .ok tree =>
    let people := findAllPath2 tree "owner" "person"
    if people.length != 0 then
      .ok (people.map (fun p => getAttr p "name"), false)
    else
      let groups := findAllPath2 tree "owner" "group"
      if groups.length != 0 then
        .ok (groups.map (fun g => getAttr g "name"), true)
      else
        .ok ([], false)

/-- `OBSUser` from `src/relx/models.py`: all fields optional. -/
structure OBSUser where
  login : Option String
  email : Option String
  realname : Option String
  state : Option String
deriving DecidableEq, Repr

/-- Outcome of calling or resuming a Python callable: either an exception
with its message, or a returned value. -/
inductive PyResult (α : Type) where
  | raised (msg : String)
  | returned (v : α)

/-- Whether a `PyResult` is an exception. -/
def PyResult.isRaised {α : Type} : PyResult α → Bool
  | .raised _ => true
  | .returned _ => false

/-- A double-quote character as a string, used inside the person-search
query URLs. -/
def dqc : String := (Char.ofNat 34).toString

/-- The error message of the invalid `search_by` branch of
`OBSUserProvider.get_user`. -/
def invalidSearchByMsg : String :=
  "Invalid search_by parameter. Must be " ++ sqc ++ "login" ++ sqc ++ ", " ++
    sqc ++ "email" ++ sqc ++ ", or " ++ sqc ++ "realname" ++ sqc ++ "."

/-- The query argument appended by `OBSUserProvider.get_user` for each
valid `search_by` value, `none` for any other value. -/
def getUserQuery (searchText searchBy : String) : Option String :=
  if searchBy == "login" then
    some ("/search/person?match=@login=" ++ dqc ++ searchText ++ dqc)
  else if searchBy == "email" then
    some ("/search/person?match=@email=" ++ dqc ++ searchText ++ dqc)
  else if searchBy == "realname" then
    some ("/search/person?match=contains(@realname," ++ dqc ++ searchText ++ dqc ++ ")")
  else none

/-- Parsing of one `person` element into an `OBSUser` in
`OBSUserProvider.get_user`. -/
def parsePerson (p : XElem) : OBSUser :=
  { login := (findChild p "login").bind XElem.text
    email := (findChild p "email").bind XElem.text
    realname := (findChild p "realname").bind XElem.text
    state := (findChild p "state").bind XElem.text }

/-- Body of the generator `OBSUserProvider.get_user` (lines 62-110 of
`src/relx/providers/obs_user.py`), executed only when the returned
generator is first consumed: an invalid `search_by` raises `ValueError`
before any collaborator call; otherwise one query is issued and every
`person` element of the response is yielded as an `OBSUser`.  The first
component of the returned pair is the list of argument vectors issued. -/
def getUserBody (api : String) (runner : List String → XElem)
    (searchText searchBy : String) : PyResult (List (List String) × List OBSUser) :=
  match getUserQuery searchText searchBy with
  | none => .raised invalidSearchByMsg
  | some q =>
    let cmd := ["osc", "-A", api, "api", q]
    let tree := runner cmd
    .returned ([cmd], (findAllChildren tree "person").map parsePerson)

/-- Calling the generator function `OBSUserProvider.get_user`: in Python a
function whose body contains `yield` returns a generator immediately and
defers its body (including the `raise ValueError` branch) until the first
consumption, so the call itself never raises. -/
def getUserCall (api : String) (runner : List String → XElem)
    (searchText searchBy : String) :
    PyResult (Unit → PyResult (List (List String) × List OBSUser)) :=
  .returned (fun _ => getUserBody api runner searchText searchBy)

/-- The application error taxonomy relevant at the CLI boundary
(`src/relx/exceptions.py` plus Python `RuntimeError`):
`userCancel` is `RelxUserCancelError`, `notFound` is
`RelxResourceNotFoundError`, `runtimeError` is `RuntimeError`. -/
inductive RelxErr where
  | userCancel (msg : String)
  | notFound (msg : String)
  | runtimeError (msg : String)
deriving DecidableEq, Repr

/-- Observable steps of the interactive review loop
(`_process_review_loop` in `src/relx/reviews.py`): prompts shown to the
human, diff fetches and approval calls through the provider, pager
invocations and printed panels. -/
inductive Event where
  | promptStart (total : Nat)
  | promptReview (idx total : Nat) (id name : String)
  | fetchDiff (id : String)
  | pager (content : String)
  | promptApprove (id name : String)
  | approveCall (id : String)
  | panel (lines : List String)
deriving DecidableEq, Repr

/-- Result of running (a suffix of) the per-item loop: the emitted events,
the message of the `RelxUserCancelError` if one was raised (`none` when
the items were exhausted normally), and the index of the next unconsumed
prompt answer. -/
structure LoopOut where
  events : List Event
  cancelMsg : Option String
  nextAns : Nat
deriving DecidableEq, Repr

/-- The per-item loop of `_process_review_loop` (lines 198-227 of
`src/relx/reviews.py`).  `diffOf` and `approveOf` model
`get_request_diff` and `approve_request` of the selected provider,
keyed by the request id carried into the backend-specific parameter
builders; `ans` is the stream of the human's prompt answers, consumed in
order; `idx` is the 1-based progress index and `total` the displayed
total.  Answer `n` skips the item, `a` raises a cancellation immediately,
`y` fetches the diff, shows it in the pager, and asks for approval,
where `y` calls the provider and prints its output lines, `n` advances,
and `a` raises a cancellation immediately. -/
def goLoop (diffOf : String → String) (approveOf : String → List String)
    (ans : Nat → Ans) (total : Nat) :
    List Request → Nat → Nat → LoopOut
  | [], _, k => ⟨[], none, k⟩
  | r :: rest, idx, k =>
    match ans k with
    | Ans.n =>
      let o := goLoop diffOf approveOf ans total rest (idx + 1) (k + 1)
      ⟨Event.promptReview idx total r.id r.name :: o.events, o.cancelMsg, o.nextAns⟩
    | Ans.a =>
      ⟨[Event.promptReview idx total r.id r.name], some "User aborted in main loop.", k + 1⟩
    | Ans.y =>
      let diff := diffOf r.id
      match ans (k + 1) with
      | Ans.y =>
        let lines := approveOf r.id
        let o := goLoop diffOf approveOf ans total rest (idx + 1) (k + 2)
        ⟨Event.promptReview idx total r.id r.name :: Event.fetchDiff r.id ::
           Event.pager diff :: Event.promptApprove r.id r.name ::
           Event.approveCall r.id :: Event.panel lines :: o.events,
         o.cancelMsg, o.nextAns⟩
      | Ans.n =>
        let o := goLoop diffOf approveOf ans total rest (idx + 1) (k + 2)
        ⟨Event.promptReview idx total r.id r.name :: Event.fetchDiff r.id ::
           Event.pager diff :: Event.promptApprove r.id r.name :: o.events,
         o.cancelMsg, o.nextAns⟩
      | Ans.a =>
        ⟨[Event.promptReview idx total r.id r.name, Event.fetchDiff r.id,
          Event.pager diff, Event.promptApprove r.id r.name],
         some "User aborted during approval.", k + 2⟩

/-- `_process_review_loop` (lines 180-229 of `src/relx/reviews.py`): one
start prompt with choices y / n (`startYes` is the `y` answer), a
cancellation when declined, the per-item loop otherwise, and the final
"All reviews done." panel only when no item raised a cancellation.  The
second component is the message of the raised `RelxUserCancelError`, if
any. -/
def processReviewLoop (diffOf : String → String) (approveOf : String → List String)
    (startYes : Bool) (ans : Nat → Ans) (requests : List Request) :
    List Event × Option String :=
  if startYes then
    let o := goLoop diffOf approveOf ans requests.length requests 1 0
    match o.cancelMsg with
    | none => (Event.promptStart requests.length :: o.events ++ [Event.panel ["All reviews done."]], none)
    | some m => (Event.promptStart requests.length :: o.events, some m)
  else
    ([Event.promptStart requests.length], some "User cancelled at start.")

/-- The post-fetch part of `reviews.main` (lines 250-259 of
`src/relx/reviews.py`): with an empty request list the function returns
before any prompt; otherwise `_process_review_loop` runs, and a raised
`RelxUserCancelError` propagates uncaught through `reviews.main` (its
only `try`/`except` wraps `_validate_args` and catches
`RelxInvalidParamsError` alone) up to the caller. -/
def reviewsMainE (diffOf : String → String) (approveOf : String → List String)
    (requests : List Request) (startYes : Bool) (ans : Nat → Ans) :
    Except RelxErr Unit :=
  if requests.isEmpty then .ok ()
  else
    match (processReviewLoop diffOf approveOf startYes ans requests).2 with
    | some m => .error (RelxErr.userCancel m)
    | none => .ok ()

/-- The exception handler at the bottom of `cli.main` (lines 154-163 of
`src/relx/cli.py`): `RelxUserCancelError` prints the neutral notice
"Operation cancelled by user." and exits 0; `RelxResourceNotFoundError`
and `RuntimeError` print `Error: <msg>` and exit 1.  The result is the
exit status paired with the printed message. -/
def cliHandle : Except RelxErr Unit → Nat × String
  | .ok _ => (0, "")
  | .error (RelxErr.userCancel _) => (0, "Operation cancelled by user.")
  | .error (RelxErr.notFound m) => (1, "Error: " ++ m)
  | .error (RelxErr.runtimeError m) => (1, "Error: " ++ m)

/-- Digit-string accumulator for `pyInt`. -/
def digitsToNatAux : List Char → Nat → Option Nat
  | [], acc => some acc
  | c :: cs, acc =>
    if c.isDigit then digitsToNatAux cs (acc * 10 + (c.toNat - 48)) else none

/-- Python `int(...)` applied to a request-id string: an optional minus
sign followed by at least one decimal digit; anything else raises
`ValueError` (modelled as `none`). -/
def pyInt (s : String) : Option Int :=
  match s.data with
  | [] => none
  | c :: cs =>
    if c == '-' then
      match cs with
      | [] => none
      | _ => (digitsToNatAux cs 0).map (fun n => -(n : Int))
    else
      (digitsToNatAux (c :: cs) 0).map (fun n => (n : Int))

/-- The membership test `int(req.id) in requested_pr_ids` of the filter
comprehension in `_fetch_and_filter_requests`. -/
def prsPred (requested : List Int) (r : Request) : Bool :=
  match pyInt r.id with
  | some n => requested.contains n
  | none => false

/-- The `--prs` filter step of `_fetch_and_filter_requests` (lines
158-177 of `src/relx/reviews.py`): every fetched id is parsed with
`int(...)` (a failure is caught and re-raised as
`RelxInvalidParamsError`, modelled as `Except.error ()`); requests whose
parsed id belongs to the requested subset are retained in fetched order;
the requested ids minus the ids found among the retained requests are
reported (non-fatally) as not found. -/
def fetchAndFilterPrs (all : List Request) (requested : List Int) :
    Except Unit (List Request × List Int) :=
  if !(all.all (fun r => (pyInt r.id).isSome)) then .error ()
  else
    let filtered := all.filter (prsPred requested)
    let foundIds := filtered.filterMap (fun r => pyInt r.id)
    let notFound := requested.filter (fun n => !(foundIds.contains n))
    .ok (filtered, notFound)

/-- `tree.findall("request")` of the review search response. -/
def requestChildren (t : XElem) : List XElem :=
  findAllChildren t "request"

/-- The top-level state test of `OBSReviewProvider.list_requests`: the
`state` child exists and has `name="review"`. -/
def stateMatchB (e : XElem) : Bool :=
  match findChild e "state" with
  | some st => getAttr st "name" == some "review"
  | none => false

/-- The sub-review test actually performed by the code: the FIRST `review`
child with `by_group="sle-release-managers"` has `state="new"`. -/
def reviewMatchB (e : XElem) : Bool :=
  match findReviewByGroup e relMgrGroup with
  | some rv => getAttr rv "state" == some "new"
  | none => false

/-- Both state conditions of the code (candidate acceptance before the
id / target-package extraction). -/
def candidateB (e : XElem) : Bool :=
  stateMatchB e && reviewMatchB e

/-- The id / target-package extraction of `OBSReviewProvider.list_requests`. -/
def extractReq (e : XElem) : Option Request :=
  match getAttr e "id", (findPath2 e "action" "target").bind (fun t => getAttr t "package") with
  | some i, some pkg => some { id := i, name := pkg, providerType := "obs" }
  | _, _ => none

/-- Full acceptance: both state conditions hold and the element carries an
id and an `action/target` package. -/
def fullAcceptB (e : XElem) : Bool :=
  candidateB e && (extractReq e).isSome

/-- The acceptance condition as the claim words it: top-level state
"review" and the element CONTAINS (somewhere among its children) a
sub-review for `sle-release-managers` with state "new". -/
def claimAcceptsB (e : XElem) : Bool :=
  stateMatchB e && e.children.any (fun c =>
    c.tag == "review" && getAttr c "by_group" == some relMgrGroup &&
      getAttr c "state" == some "new")

theorem obsAccept_eq (e : XElem) :
    obsAccept e = if fullAcceptB e then extractReq e else none := by
  unfold obsAccept fullAcceptB candidateB stateMatchB reviewMatchB extractReq
  cases hst : findChild e "state" with
  | none => simp
  | some st =>
    cases h1 : (getAttr st "name" == some "review") with
    | false => simp [h1]
    | true =>
      simp only [h1, if_true, Bool.true_and]
      cases hrv : findReviewByGroup e relMgrGroup with
      | none => simp
      | some rv =>
        cases h2 : (getAttr rv "state" == some "new") with
        | false => simp [h2]
        | true =>
          simp only [h2, if_true, Bool.true_and]
          cases hid : getAttr e "id" with
          | none => simp
          | some i =>
            cases hpkg : (findPath2 e "action" "target").bind (fun t => getAttr t "package") with
            | none => simp
            | some pkg => simp

theorem obsAccept_eq_some_iff (e : XElem) (r : Request) :
    obsAccept e = some r ↔ fullAcceptB e = true ∧ extractReq e = some r := by
  rw [obsAccept_eq]
  by_cases h : fullAcceptB e = true
  · simp [h]
  · simp [h]

theorem filterMap_obsAccept_length (l : List XElem) :
    (l.filterMap obsAccept).length = (l.filter fullAcceptB).length := by
  induction l with
  | nil => rfl
  | cons e t ih =>
    rw [List.filterMap_cons, List.filter_cons, obsAccept_eq]
    by_cases h : fullAcceptB e = true
    · obtain ⟨r, hr⟩ := Option.isSome_iff_exists.mp (by
        unfold fullAcceptB at h
        exact (Bool.and_eq_true _ _ |>.mp h).2)
      simp [h, hr, ih]
    · simp [h, ih]

theorem filter_length_mono_of_imp {α : Type} (p q : α → Bool) (l : List α)
    (h : ∀ x ∈ l, p x = true → q x = true) :
    (l.filter p).length ≤ (l.filter q).length := by
  induction l with
  | nil => simp
  | cons a t ih =>
    have ht : ∀ x ∈ t, p x = true → q x = true := fun x hx => h x (List.mem_cons_of_mem a hx)
    rw [List.filter_cons, List.filter_cons]
    by_cases hp : p a = true
    · simp [hp, h a (List.mem_cons_self a t) hp, Nat.succ_le_succ (ih ht)]
    · by_cases hq : q a = true
      · simp [hp, hq]
        exact Nat.le_succ_of_le (ih ht)
      · simp [hp, hq, ih ht]

theorem filter_length_strict_mono {α : Type} (p q : α → Bool) (l : List α)
    (h : ∀ x ∈ l, p x = true → q x = true) (e : α) (he : e ∈ l)
    (hq : q e = true) (hp : p e = false) :
    (l.filter p).length < (l.filter q).length := by
  induction l with
  | nil => cases he
  | cons a t ih =>
    have ht : ∀ x ∈ t, p x = true → q x = true := fun x hx => h x (List.mem_cons_of_mem a hx)
    rw [List.filter_cons, List.filter_cons]
    rcases List.mem_cons.mp he with rfl | hmem
    · simp [hp, hq]
      exact Nat.lt_succ_of_le (filter_length_mono_of_imp p q t ht)
    · by_cases hpa : p a = true
      · simp [hpa, h a (List.mem_cons_self a t) hpa]
        exact ih ht hmem
      · by_cases hqa : q a = true
        · simp [hpa, hqa]
          exact Nat.lt_succ_of_lt (ih ht hmem)
        · simp [hpa, hqa]
          exact ih ht hmem

/-- Shorthand for an element without text content. -/
def xe (tag : String) (attrs : List (String × String)) (children : List XElem) : XElem :=
  XElem.mk tag attrs none children

/-- A `state` element with `name="review"`. -/
def stateReviewElem : XElem := xe "state" [("name", "review")] []

/-- A matching sub-review at state `new`. -/
def reviewNewElem : XElem :=
  xe "review" [("by_group", "sle-release-managers"), ("state", "new")] []

/-- A sub-review for the reviewing group at state `accepted`. -/
def reviewAcceptedElem : XElem :=
  xe "review" [("by_group", "sle-release-managers"), ("state", "accepted")] []

/-- An `action` element with a `target` child naming a package. -/
def actionTargetElem (pkg : String) : XElem :=
  xe "action" [] [xe "target" [("package", pkg)] []]

/-- A request element satisfying both state conditions of the claim but
carrying no `id` attribute. -/
def reqMissingId : XElem :=
  xe "request" [] [stateReviewElem, reviewNewElem, actionTargetElem "pkgA"]

/-- A request element with id and package whose FIRST
`sle-release-managers` sub-review is `accepted` while a SECOND one is
`new`; it contains a matching sub-review, yet the code inspects only the
first one. -/
def reqDupGroup : XElem :=
  xe "request" [("id", "42")]
    [stateReviewElem, reviewAcceptedElem, reviewNewElem, actionTargetElem "pkgB"]

/-- Response tree with the two elements above. -/
def treeC1 : XElem := xe "collection" [] [reqMissingId, reqDupGroup]

/-- The spec's positive example: one complete request in review state with
a matching `new` sub-review. -/
def reqGood : XElem :=
  xe "request" [("id", "123")] [stateReviewElem, reviewNewElem, actionTargetElem "pkg1"]

/-- Response tree with the single complete request. -/
def treeGood : XElem := xe "collection" [] [reqGood]

/-- The same tree with the sub-review state changed away from `new`. -/
def treeGoodChanged : XElem :=
  xe "collection" [] [xe "request" [("id", "123")]
    [stateReviewElem, reviewAcceptedElem, actionTargetElem "pkg1"]]

/-- Response tree containing only the candidate without an id. -/
def treeC10 : XElem := xe "collection" [] [reqMissingId]

/-- C1, counterexample: a response tree in which both request elements
satisfy the claim's acceptance condition (top-level state "review" and a
contained `sle-release-managers` sub-review with state "new"), yet
`list_requests` yields zero `Request` values: one element lacks an `id`
attribute, the other's FIRST sub-review for the group is not "new"
(the code only inspects the first).  The claim's "if and only if" fails
in the "if" direction. -/
theorem c1_counterexample_claim_fails :
    (obsListRequests "https://api.test" (fun _ => some treeC1)
        (ListRequestsParams.obs { project := "proj" })).2 = [] ∧
    ((requestChildren treeC1).filter claimAcceptsB).length = 2 := by
  constructor
  · rfl
  · rfl

/-- C1, amended: a request element of the response tree yields a `Request`
if and only if its top-level state is "review", the FIRST sub-review
entry for the group `sle-release-managers` has state "new", and the
element carries both an `id` attribute and an `action/target` `package`
attribute; sub-reviews for other groups or in other states are
tolerated.  In particular the spec's example tree with one such request
yields exactly one `Request`, and the same tree with the sub-review state
changed to another value yields zero. -/
theorem c1_amended_accept_characterization :
    (∀ t : XElem, (obsParseRequests t).length = ((requestChildren t).filter fullAcceptB).length) ∧
    (∀ (t : XElem) (r : Request), r ∈ obsParseRequests t ↔
        ∃ e, e ∈ requestChildren t ∧ fullAcceptB e = true ∧ extractReq e = some r) ∧
    (obsListRequests "https://api.test" (fun _ => some treeGood)
        (ListRequestsParams.obs { project := "proj" })).2 =
      [{ id := "123", name := "pkg1", providerType := "obs" }] ∧
    (obsListRequests "https://api.test" (fun _ => some treeGoodChanged)
        (ListRequestsParams.obs { project := "proj" })).2 = [] := by
  refine ⟨fun t => filterMap_obsAccept_length _, fun t r => ?_, rfl, rfl⟩
  unfold obsParseRequests requestChildren
  rw [List.mem_filterMap]
  constructor
  · rintro ⟨e, he, hacc⟩
    exact ⟨e, he, (obsAccept_eq_some_iff e r).mp hacc⟩
  · rintro ⟨e, he, hfull, hext⟩
    exact ⟨e, he, (obsAccept_eq_some_iff e r).mpr ⟨hfull, hext⟩⟩

/-- C10: a request element that passes both state conditions but lacks an
id attribute or an action/target package attribute is silently dropped:
the parsed list (a total function, no error path exists) never exceeds
the number of state-matching candidates, and is strictly shorter when
such an incomplete candidate is present. -/
theorem c10_incomplete_candidate_dropped :
    (∀ t : XElem, (obsParseRequests t).length ≤ ((requestChildren t).filter candidateB).length) ∧
    (∀ (t : XElem) (e : XElem), e ∈ requestChildren t → candidateB e = true →
        extractReq e = none →
        (obsParseRequests t).length < ((requestChildren t).filter candidateB).length) := by
  have himp : ∀ (t : XElem), ∀ x ∈ requestChildren t, fullAcceptB x = true → candidateB x = true := by
    intro t x _ hx
    unfold fullAcceptB at hx
    exact (Bool.and_eq_true _ _ |>.mp hx).1
  constructor
  · intro t
    rw [obsParseRequests, filterMap_obsAccept_length]
    exact filter_length_mono_of_imp _ _ _ (himp t)
  · intro t e he hcand hext
    rw [obsParseRequests, filterMap_obsAccept_length]
    refine filter_length_strict_mono _ _ _ (himp t) e he hcand ?_
    unfold fullAcceptB
    simp [hext, hcand]

/-- C10 witness: the concrete tree whose only request element matches both
state conditions but has no id attribute; the parse yields zero requests
out of one candidate. -/
theorem c10_incomplete_candidate_dropped_witness :
    reqMissingId ∈ requestChildren treeC10 ∧ candidateB reqMissingId = true ∧
      extractReq reqMissingId = none ∧
      (obsParseRequests treeC10).length < ((requestChildren treeC10).filter candidateB).length :=
  ⟨List.mem_singleton_self reqMissingId, rfl, rfl,
    c10_incomplete_candidate_dropped.2 treeC10 reqMissingId
      (List.mem_singleton_self reqMissingId) rfl rfl⟩

theorem goLoop_append_done (d : String → String) (a : String → List String)
    (ans : Nat → Ans) (total : Nat) :
    ∀ (pre rest : List Request) (idx k : Nat) (es : List Event) (k1 : Nat),
      goLoop d a ans total pre idx k = ⟨es, none, k1⟩ →
      goLoop d a ans total (pre ++ rest) idx k =
        ⟨es ++ (goLoop d a ans total rest (idx + pre.length) k1).events,
         (goLoop d a ans total rest (idx + pre.length) k1).cancelMsg,
         (goLoop d a ans total rest (idx + pre.length) k1).nextAns⟩ := by
  intro pre
  induction pre with
  | nil =>
    intro rest idx k es k1 h
    simp only [goLoop, LoopOut.mk.injEq] at h
    obtain ⟨h1, _, h3⟩ := h
    subst h1
    subst h3
    simp [goLoop]
  | cons r pre ih =>
    intro rest idx k es k1 h
    simp only [goLoop] at h
    cases hk : ans k with
    | a => rw [hk] at h; simp only [LoopOut.mk.injEq] at h; exact absurd h.2.1 (by simp)
    | n =>
      rw [hk] at h
      cases ho : goLoop d a ans total pre (idx + 1) (k + 1) with
      | mk ev cm nk =>
        rw [ho] at h
        simp only [LoopOut.mk.injEq] at h
        obtain ⟨h1, h2, h3⟩ := h
        subst h2
        have := ih rest (idx + 1) (k + 1) ev nk ho
        simp only [List.cons_append, goLoop, hk, List.append_eq, this]
        have harith : idx + 1 + pre.length = idx + (pre.length + 1) := by omega
        simp only [List.length_cons, harith, ← h1, ← h3, List.cons_append]
    | y =>
      rw [hk] at h
      cases hk2 : ans (k + 1) with
      | a => rw [hk2] at h; simp only [LoopOut.mk.injEq] at h; exact absurd h.2.1 (by simp)
      | n =>
        rw [hk2] at h
        cases ho : goLoop d a ans total pre (idx + 1) (k + 2) with
        | mk ev cm nk =>
          rw [ho] at h
          simp only [LoopOut.mk.injEq] at h
          obtain ⟨h1, h2, h3⟩ := h
          subst h2
          have := ih rest (idx + 1) (k + 2) ev nk ho
          simp only [List.cons_append, goLoop, hk, hk2, List.append_eq, this]
          have harith : idx + 1 + pre.length = idx + (pre.length + 1) := by omega
          simp only [List.length_cons, harith, ← h1, ← h3, List.cons_append]
      | y =>
        rw [hk2] at h
        cases ho : goLoop d a ans total pre (idx + 1) (k + 2) with
        | mk ev cm nk =>
          rw [ho] at h
          simp only [LoopOut.mk.injEq] at h
          obtain ⟨h1, h2, h3⟩ := h
          subst h2
          have := ih rest (idx + 1) (k + 2) ev nk ho
          simp only [List.cons_append, goLoop, hk, hk2, List.append_eq, this]
          have harith : idx + 1 + pre.length = idx + (pre.length + 1) := by omega
          simp only [List.length_cons, harith, ← h1, ← h3, List.cons_append]

/-- C2: in the review loop over a non-empty request list, answering abort
at the per-item review prompt of item i (here the item `r`, preceded by
the items of `pre` whose processing consumed the answers up to index
`k1` and raised no cancellation) terminates the loop at once: the full
event trace ends with that prompt — no diff fetch, no pager, no approval
call for `r` or any later item, and no later item is prompted — and the
`RelxUserCancelError` message of the in-loop abort is raised. -/
theorem c2_abort_stops_loop (d : String → String) (a : String → List String)
    (ans : Nat → Ans) (pre post : List Request) (r : Request) (es : List Event) (k1 : Nat)
    (hpre : goLoop d a ans (pre ++ r :: post).length pre 1 0 = ⟨es, none, k1⟩)
    (habort : ans k1 = Ans.a) :
    processReviewLoop d a true ans (pre ++ r :: post) =
      (Event.promptStart (pre ++ r :: post).length ::
        (es ++ [Event.promptReview (1 + pre.length) (pre ++ r :: post).length r.id r.name]),
       some "User aborted in main loop.") := by
  have happ := goLoop_append_done d a ans (pre ++ r :: post).length pre (r :: post) 1 0 es k1 hpre
  have habort' : goLoop d a ans (pre ++ r :: post).length (r :: post) (1 + pre.length) k1 =
      ⟨[Event.promptReview (1 + pre.length) (pre ++ r :: post).length r.id r.name],
       some "User aborted in main loop.", k1 + 1⟩ := by
    simp [goLoop, habort]
  rw [habort'] at happ
  simp only [processReviewLoop, if_true, happ]

/-- C2 witness: two requests, the user starts the loop and aborts at the
first item's review prompt; the trace is just the start prompt and that
one review prompt, and the cancellation is raised. -/
theorem c2_abort_stops_loop_witness :
    processReviewLoop (fun _ => "diff") (fun _ => ["ok"]) true (fun _ => Ans.a)
        [{ id := "1", name := "pkg1", providerType := "obs" },
         { id := "2", name := "pkg2", providerType := "obs" }] =
      ([Event.promptStart 2, Event.promptReview 1 2 "1" "pkg1"],
       some "User aborted in main loop.") := by
  have h := c2_abort_stops_loop (fun _ => "diff") (fun _ => ["ok"]) (fun _ => Ans.a)
      [] [{ id := "2", name := "pkg2", providerType := "obs" }]
      { id := "1", name := "pkg1", providerType := "obs" } [] 0 rfl rfl
  simpa using h

/-- C3: a raised user cancellation (declining to start, or aborting at any
prompt of the loop) propagates uncaught through the orchestrator
(`reviews.main` catches only `RelxInvalidParamsError`, and only around
argument validation) to the top-level handler of `cli.main`, which
converts it to exit status 0 with the neutral notice; a
`RelxResourceNotFoundError` or `RuntimeError` reaching the same handler
exits with status 1 and an error marker. -/
theorem c3_cancellation_reaches_cli_as_success :
    (∀ (d : String → String) (a : String → List String) (reqs : List Request)
        (startYes : Bool) (ans : Nat → Ans) (m : String),
        reqs ≠ [] →
        (processReviewLoop d a startYes ans reqs).2 = some m →
        reviewsMainE d a reqs startYes ans = .error (RelxErr.userCancel m) ∧
          cliHandle (reviewsMainE d a reqs startYes ans) =
            (0, "Operation cancelled by user.")) ∧
    (∀ m, cliHandle (.error (RelxErr.notFound m)) = (1, "Error: " ++ m)) ∧
    (∀ m, cliHandle (.error (RelxErr.runtimeError m)) = (1, "Error: " ++ m)) := by
  refine ⟨?_, fun m => rfl, fun m => rfl⟩
  intro d a reqs startYes ans m hne hloop
  have hempty : reqs.isEmpty = false := by
    cases reqs with
    | nil => exact absurd rfl hne
    | cons x xs => rfl
  have hmain : reviewsMainE d a reqs startYes ans = .error (RelxErr.userCancel m) := by
    unfold reviewsMainE
    rw [hempty, hloop]
    rfl
  exact ⟨hmain, by rw [hmain]; rfl⟩

/-- C3 witness: one request, the user declines to start; the CLI boundary
reports exit status 0 with the cancellation notice, while a not-found
error reports exit status 1. -/
theorem c3_cancellation_reaches_cli_witness :
    cliHandle (reviewsMainE (fun _ => "d") (fun _ => ["l"])
        [{ id := "1", name := "pkg1", providerType := "obs" }] false (fun _ => Ans.y)) =
      (0, "Operation cancelled by user.") ∧
    cliHandle (.error (RelxErr.notFound "x")) = (1, "Error: x") :=
  ⟨(c3_cancellation_reaches_cli_as_success.1 (fun _ => "d") (fun _ => ["l"])
      [{ id := "1", name := "pkg1", providerType := "obs" }] false (fun _ => Ans.y)
      "User cancelled at start." (by simp) rfl).2,
   c3_cancellation_reaches_cli_as_success.2.1 "x"⟩

/-- C4: for every well-typed (forge-variant) approval parameter object the
forge backend issues exactly one comment-posting call, with the fixed
templated message naming the reviewer — but, contrary to the claim, a
call that produces EMPTY OUTPUT does not map to an empty result list:
the guard `if not result` only catches a missing result object, so a
result object with empty stdout yields `[""]`.  The evaluation below
exhibits the failing input. -/
theorem c4_gitea_approve_empty_output :
    (∀ (runner : List String → Option CmdResult) (p : GiteaApproveRequestParams),
        (giteaApproveRequest runner (ApproveRequestParams.gitea p)).1 = [giteaApproveCmd p]) ∧
    giteaApproveRequest (fun _ => some { stdout := "" })
        (ApproveRequestParams.gitea
          { requestId := "101", repository := "my-repo", reviewer := "me" }) =
      ([["git", "obs", "pr", "comment", "my-repo#101", "-m", "@me: approve"]], [""]) ∧
    ([""] : List String) ≠ [] := by
  refine ⟨fun runner p => ?_, rfl, by simp⟩
  unfold giteaApproveRequest
  cases h : runner (giteaApproveCmd p) <;> simp [h]

/-- C5: the build-service approval issues one `osc review accept` call per
group, in order — always `sle-release-managers` first, plus
`sle-staging-managers` exactly when the bugowner flag is set — each call
carrying the literal comment "OK" (visible in `obsApproveCmd`), and the
returned lines are one per group, prefixed with the group's name. -/
theorem c5_obs_approve_per_group :
    ∀ (api : String) (runner : List String → CmdResult) (requestId : String)
      (isBugowner : Bool),
      (obsApproveRequest api runner requestId isBugowner).1 =
        (if isBugowner then ["sle-release-managers", "sle-staging-managers"]
         else ["sle-release-managers"]).map (fun g => obsApproveCmd api g requestId) ∧
      (obsApproveRequest api runner requestId isBugowner).2 =
        (if isBugowner then ["sle-release-managers", "sle-staging-managers"]
         else ["sle-release-managers"]).map
          (fun g => g ++ ": " ++ (runner (obsApproveCmd api g requestId)).stdout) := by
  intro api runner requestId isBugowner
  cases isBugowner <;> exact ⟨rfl, rfl⟩

/-- C9: each review backend rejects a parameter object of the other
backend's variant: the result is empty and — the command trace being
empty — no backend call is issued; the parameters are never coerced. -/
theorem c9_wrong_variant_rejected :
    ∀ (api : String) (r1 : List String → Option XElem) (r2 : List String → GiteaCmdOut)
      (gp : GiteaListRequestsParams) (op : ObsListRequestsParams),
      obsListRequests api r1 (ListRequestsParams.gitea gp) = ([], []) ∧
      giteaListRequests r2 (ListRequestsParams.obs op) = ([], []) :=
  fun _ _ _ _ _ => ⟨rfl, rfl⟩

theorem contains_iff_mem_int (l : List Int) (n : Int) : l.contains n = true ↔ n ∈ l := by
  induction l with
  | nil => simp
  | cons a t ih => simp [List.contains, List.elem_cons, List.mem_cons]

/-- C6: with an explicit id-subset filter, the fetch-and-filter step keeps
exactly the fetched requests whose (numeric) ids lie in the requested
subset, in the original fetched order (a sublist of the fetched list),
and separately reports exactly the requested ids that occur nowhere in
the fetched set; the step completes without error whenever every fetched
id parses as an integer. -/
theorem c6_prs_filter_characterization :
    ∀ (all : List Request) (requested : List Int),
      (∀ r ∈ all, (pyInt r.id).isSome = true) →
      ∃ filtered notFound,
        fetchAndFilterPrs all requested = Except.ok (filtered, notFound) ∧
        List.Sublist filtered all ∧
        (∀ r, r ∈ filtered ↔ r ∈ all ∧ ∃ n, pyInt r.id = some n ∧ n ∈ requested) ∧
        (∀ n, n ∈ notFound ↔ n ∈ requested ∧ ∀ r ∈ all, pyInt r.id ≠ some n) := by
  intro all requested hall
  have hguard : all.all (fun r => (pyInt r.id).isSome) = true := List.all_eq_true.mpr hall
  have hmemf : ∀ r, r ∈ all.filter (prsPred requested) ↔
      r ∈ all ∧ ∃ n, pyInt r.id = some n ∧ n ∈ requested := by
    intro r
    rw [List.mem_filter]
    constructor
    · rintro ⟨hr, hp⟩
      unfold prsPred at hp
      cases hid : pyInt r.id with
      | none => rw [hid] at hp; cases hp
      | some n =>
        rw [hid] at hp
        exact ⟨hr, n, rfl, (contains_iff_mem_int requested n).mp hp⟩
    · rintro ⟨hr, n, hid, hn⟩
      refine ⟨hr, ?_⟩
      unfold prsPred
      rw [hid]
      exact (contains_iff_mem_int requested n).mpr hn
  refine ⟨all.filter (prsPred requested),
    requested.filter (fun n =>
      !(((all.filter (prsPred requested)).filterMap (fun r => pyInt r.id)).contains n)),
    ?_, List.filter_sublist _, hmemf, ?_⟩
  · unfold fetchAndFilterPrs
    rw [hguard]
    rfl
  · intro n
    rw [List.mem_filter]
    have hfound : ((all.filter (prsPred requested)).filterMap
        (fun r => pyInt r.id)).contains n = true ↔
        ∃ r ∈ all.filter (prsPred requested), pyInt r.id = some n := by
      rw [contains_iff_mem_int, List.mem_filterMap]
    constructor
    · rintro ⟨hnreq, hb⟩
      refine ⟨hnreq, fun r hr hid => ?_⟩
      have : ∃ x ∈ all.filter (prsPred requested), pyInt x.id = some n := by
        refine ⟨r, (hmemf r).mpr ⟨hr, n, hid, hnreq⟩, hid⟩
      rw [Bool.not_eq_true', ← Bool.not_eq_true] at hb
      exact hb (hfound.mpr this)
    · rintro ⟨hnreq, habs⟩
      refine ⟨hnreq, ?_⟩
      rw [Bool.not_eq_true', ← Bool.not_eq_true]
      intro hc
      obtain ⟨r, hrf, hid⟩ := hfound.mp hc
      exact habs r ((hmemf r).mp hrf).1 hid

/-- C6 witness: fetched ids 1, 2, 3 filtered by the requested subset
1, 3, 5 — every fetched id parses, the step succeeds, and the theorem's
characterization applies (ids 1 and 3 are retained in order, 5 is
reported as not found). -/
theorem c6_prs_filter_witness :
    (∀ r ∈ [Request.mk "1" "a" "gitea", Request.mk "2" "b" "gitea",
            Request.mk "3" "c" "gitea"], (pyInt r.id).isSome = true) ∧
    (∃ filtered notFound,
      fetchAndFilterPrs
          [Request.mk "1" "a" "gitea", Request.mk "2" "b" "gitea",
           Request.mk "3" "c" "gitea"] [1, 3, 5] = Except.ok (filtered, notFound) ∧
        List.Sublist filtered
          [Request.mk "1" "a" "gitea", Request.mk "2" "b" "gitea",
           Request.mk "3" "c" "gitea"] ∧
        (∀ r, r ∈ filtered ↔ r ∈ [Request.mk "1" "a" "gitea", Request.mk "2" "b" "gitea",
            Request.mk "3" "c" "gitea"] ∧ ∃ n, pyInt r.id = some n ∧ n ∈ [1, 3, 5]) ∧
        (∀ n, n ∈ notFound ↔ n ∈ ([1, 3, 5] : List Int) ∧
          ∀ r ∈ [Request.mk "1" "a" "gitea", Request.mk "2" "b" "gitea",
              Request.mk "3" "c" "gitea"], pyInt r.id ≠ some n)) ∧
    fetchAndFilterPrs
        [Request.mk "1" "a" "gitea", Request.mk "2" "b" "gitea",
         Request.mk "3" "c" "gitea"] [1, 3, 5] =
      Except.ok ([Request.mk "1" "a" "gitea", Request.mk "3" "c" "gitea"], [5]) :=
  ⟨by decide,
   c6_prs_filter_characterization
     [Request.mk "1" "a" "gitea", Request.mk "2" "b" "gitea", Request.mk "3" "c" "gitea"]
     [1, 3, 5] (by decide),
   rfl⟩

/-- Ownership response with one group-type owner and no person-type
owner, matching the spec's example. -/
def bugownerGroupTree : XElem :=
  xe "collection" [] [xe "owner" [] [xe "group" [("name", "thatgroup")] []]]

/-- C7: the ownership query percent-encodes every `++` of the package name
(the command carries `pctEncodePlusPlus pkg`, and the spec's example
encodes as shown); person-type owners are returned first with the flag
`false`; group-type owners are returned only when no person-type owner
exists, with the flag `true`; neither kind yields `([], false)`; a failed
backend command is wrapped as the `"<package> has no bugowner"` error
rather than propagated raw. -/
theorem c7_get_bugowner_spec :
    (∀ api pkg, getBugownerCmd api pkg =
        ["osc", "-A", api, "api",
         "/search/owner?package=" ++ pctEncodePlusPlus pkg ++ "&filter=bugowner"]) ∧
    pctEncodePlusPlus "pkg++name" = "pkg%2B%2Bname" ∧
    pctEncodePlusPlus "a++b++" = "a%2B%2Bb%2B%2B" ∧
    (∀ api pkg (runner : List String → Except Unit XElem) (tree : XElem),
        runner (getBugownerCmd api pkg) = .ok tree →
        (findAllPath2 tree "owner" "person" ≠ [] →
          getBugowner api runner pkg =
            .ok ((findAllPath2 tree "owner" "person").map (fun p => getAttr p "name"), false)) ∧
        (findAllPath2 tree "owner" "person" = [] → findAllPath2 tree "owner" "group" ≠ [] →
          getBugowner api runner pkg =
            .ok ((findAllPath2 tree "owner" "group").map (fun g => getAttr g "name"), true)) ∧
        (findAllPath2 tree "owner" "person" = [] → findAllPath2 tree "owner" "group" = [] →
          getBugowner api runner pkg = .ok ([], false))) ∧
    (∀ api pkg (runner : List String → Except Unit XElem),
        runner (getBugownerCmd api pkg) = .error () →
        getBugowner api runner pkg = .error (pkg ++ " has no bugowner")) := by
  refine ⟨fun api pkg => rfl, rfl, rfl, ?_, ?_⟩
  · intro api pkg runner tree hrun
    refine ⟨?_, ?_, ?_⟩
    · intro hp
      unfold getBugowner
      rw [hrun]
      have : ((findAllPath2 tree "owner" "person").length != 0) = true := by
        simpa [List.length_eq_zero] using hp
      simp [this]
    · intro hp hg
      unfold getBugowner
      rw [hrun]
      have h1 : ((findAllPath2 tree "owner" "person").length != 0) = false := by
        simp [hp]
      have h2 : ((findAllPath2 tree "owner" "group").length != 0) = true := by
        simpa [List.length_eq_zero] using hg
      simp [h1, h2]
    · intro hp hg
      unfold getBugowner
      rw [hrun]
      simp [hp, hg]
  · intro api pkg runner hrun
    unfold getBugowner
    rw [hrun]

/-- C7 witness: the spec's concrete case — a response with one `group`
element and no `person` element yields `([some "thatgroup"], true)` for
the package `pkg++name` whose query was percent-encoded — and a failing
backend command yields the wrapped error. -/
theorem c7_get_bugowner_witness :
    getBugowner "https://api.test" (fun _ => .ok bugownerGroupTree) "pkg++name" =
      .ok ([some "thatgroup"], true) ∧
    getBugowner "https://api.test" (fun _ => .error ()) "pkg++name" =
      .error ("pkg++name has no bugowner") :=
  ⟨((c7_get_bugowner_spec.2.2.2.1 "https://api.test" "pkg++name"
      (fun _ => .ok bugownerGroupTree) bugownerGroupTree rfl).2.1 rfl
      (List.cons_ne_nil _ _)),
   c7_get_bugowner_spec.2.2.2.2 "https://api.test" "pkg++name" (fun _ => .error ()) rfl⟩

/-- A collaborator stub used only to exhibit the claim's failure: it never
matters because the invalid branch runs before any backend call. -/
def emptyTreeRunner : List String → XElem := fun _ => xe "collection" [] []

/-- C8, counterexample: invoking `get_user` with an invalid `search_by`
does NOT raise at invocation time — the function body contains `yield`,
so Python returns a generator immediately and defers the body; the
repository's own test has to wrap the call in `list(...)` to trigger the
error.  Forcing the generator then raises the invalid-argument
`ValueError` with no backend call. -/
theorem c8_counterexample_error_deferred :
    (getUserCall "https://api.test" emptyTreeRunner "any" "bogus").isRaised = false ∧
    getUserBody "https://api.test" emptyTreeRunner "any" "bogus" =
      PyResult.raised invalidSearchByMsg :=
  ⟨rfl, rfl⟩

/-- C8, amended: with a `search_by` outside login / email / realname, the
generator body raises the invalid-argument `ValueError` as soon as it is
first consumed, before any backend call (the outcome is independent of
the command collaborator, and the raised result carries no issued
command), while the invocation itself returns the generator without
raising. -/
theorem c8_amended_invalid_search_by :
    ∀ (api : String) (r1 r2 : List String → XElem) (text searchBy : String),
      searchBy ≠ "login" → searchBy ≠ "email" → searchBy ≠ "realname" →
      getUserBody api r1 text searchBy = PyResult.raised invalidSearchByMsg ∧
      getUserBody api r1 text searchBy = getUserBody api r2 text searchBy ∧
      (getUserCall api r1 text searchBy).isRaised = false := by
  intro api r1 r2 text searchBy h1 h2 h3
  have hq : getUserQuery text searchBy = none := by
    unfold getUserQuery
    simp [h1, h2, h3]
  refine ⟨?_, ?_, rfl⟩
  · unfold getUserBody
    rw [hq]
  · unfold getUserBody
    rw [hq]

/-- C8 witness: the amended claim instantiated at the invalid value
`"bogus"`. -/
theorem c8_amended_invalid_search_by_witness :
    getUserBody "https://api.test" emptyTreeRunner "any" "bogus" =
      PyResult.raised invalidSearchByMsg ∧
    (getUserCall "https://api.test" emptyTreeRunner "any" "bogus").isRaised = false :=
  ⟨(c8_amended_invalid_search_by "https://api.test" emptyTreeRunner
      (fun _ => xe "x" [] []) "any" "bogus" (by decide) (by decide) (by decide)).1,
   (c8_amended_invalid_search_by "https://api.test" emptyTreeRunner
      (fun _ => xe "x" [] []) "any" "bogus" (by decide) (by decide) (by decide)).2.2⟩
